import Mathlib

/-!
Verification of the transport/auth/request-construction core and the live-session
input encoder of the `google.genai` client library, shallowly embedded in Lean.

Python dictionaries holding HTTP headers are modelled as partial maps
`String → Option String`; Python string containment (`in`) is modelled by
`containsSub`; numeric values that are Python floats in the source
(timeouts, poll delays) are modelled as exact rationals.
-/

namespace GenAI

/-! ## Strings: substring occurrence machinery (models Python `in` on `str`) -/

/-- Does `needle` occur in `hay` starting at position `i`? -/
def occursAt (needle hay : List Char) (i : Nat) : Bool :=
  needle.isPrefixOf (hay.drop i)

/-- Number of positions of `hay` at which `needle` occurs as a substring. -/
def countOcc (needle hay : List Char) : Nat :=
  (List.range (hay.length + 1)).countP (fun i => occursAt needle hay i)

/-- Python `needle in hay` for strings: substring containment. -/
def containsSub (needle hay : String) : Bool :=
  (List.range (hay.data.length + 1)).any (fun i => occursAt needle.data hay.data i)

/-! ## Headers and HTTP options (`_api_client.py`)

Headers are Python `dict[str, str]`, modelled as partial maps. -/

def Headers : Type := String → Option String

/-- Python empty dict `{}`. -/
def Headers.empty : Headers := fun _ => none

/-- Python `d[k] = v`. -/
def Headers.insert (h : Headers) (k v : String) : Headers :=
  fun k' => if k' = k then some v else h k'

/-- Python dict merge `\x7b**base, **patch\x7d`: every key of either, patch wins. -/
def Headers.merge (base patch : Headers) : Headers :=
  fun k => (patch k).orElse (fun _ => base k)

/-- The `HttpOptions` pydantic model: its `model_fields` are exactly
`base_url`, `api_version`, `headers` and `timeout` (timeout in milliseconds). -/
structure HttpOptions where
  base_url : Option String := none
  api_version : Option String := none
  headers : Option Headers := none
  timeout : Option Rat := none

/-- One arm of `_append_library_version_headers`: when `key` is present and the
token is not yet a substring, append `' ' + token`; when `key` is absent,
install the token; otherwise leave the map unchanged. -/
def appendVersionHeader (T key : String) (headers : Headers) : Headers :=
  match headers key with
  | some v => if containsSub T v then headers else headers.insert key (v ++ " " ++ T)
  | none => headers.insert key T

/-- The source's `_append_library_version_headers(headers)`: appends the
library-identity token (the parameter `T`, standing for the computed
`f'google-genai-sdk/\x7bversion\x7d gl-python/\x7bpyversion\x7d'` value) to the
`user-agent` and `x-goog-api-client` entries, skipping the append when the exact
token is already a substring of the existing value, and installing the token
when the key is absent. -/
def _append_library_version_headers (T : String) (headers : Headers) : Headers :=
  appendVersionHeader T "x-goog-api-client" (appendVersionHeader T "user-agent" headers)

/-- The source's `_patch_http_options(options, patch_options)`: headers are
dict-merged (patch wins per key, both `None` headers treated as `\x7b\x7d`), every
other model field takes the patch value exactly when it `is not None`, and the
version headers are appended to the merged (hence always present) header map. -/
def _patch_http_options (T : String) (options patch_options : HttpOptions) : HttpOptions where
  base_url := (patch_options.base_url).orElse (fun _ => options.base_url)
  api_version := (patch_options.api_version).orElse (fun _ => options.api_version)
  timeout := (patch_options.timeout).orElse (fun _ => options.timeout)
  headers := some (_append_library_version_headers T
    (Headers.merge (options.headers.getD Headers.empty)
      (patch_options.headers.getD Headers.empty)))

/-- Header map of an `HttpOptions`, with `None` read as the empty dict. -/
def headersAt (o : HttpOptions) (k : String) : Option String :=
  (o.headers.getD Headers.empty) k

/-- The source's `_get_timeout_in_seconds`: Python truthiness (`if timeout:`)
sends both `None` and `0` to `None`; any other value is divided by 1000. -/
def _get_timeout_in_seconds (timeout : Option Rat) : Option Rat :=
  match timeout with
  | none => none
  | some t => if t = 0 then none else some (t / 1000)

/-- Header value at a key read as a character list (empty when absent), used to
count occurrences of the identity token. -/
def valueData (o : HttpOptions) (k : String) : List Char :=
  ((headersAt o k).getD "").data

/-- Representative concrete value of the library-identity token
`f'google-genai-sdk/\x7bversion\x7d gl-python/\x7bpyversion\x7d'`. -/
def tok0 : String := "google-genai-sdk/1.0.0 gl-python/3.12.0"

/-! ## Long-running-operation poller (`_transformers.py::t_resolve_operation`) -/

/-- An operation handle dict: \x7bname, done, error, response\x7d, each key
possibly absent. The `response` payload is opaque and modelled as a string. -/
structure OperationDict where
  name : Option String := none
  done : Option Bool := none
  error : Option String := none
  response : Option String := none
deriving DecidableEq

def LRO_POLLING_INITIAL_DELAY_SECONDS : Rat := 1
def LRO_POLLING_MAXIMUM_DELAY_SECONDS : Rat := 20
def LRO_POLLING_TIMEOUT_SECONDS : Rat := 900
def LRO_POLLING_MULTIPLIER : Rat := 3 / 2

/-- Outcome of `t_resolve_operation`. `stillPolling` records the loop variables
when the iteration budget (fuel) runs out with the loop still going. -/
inductive ResolveResult
  | notOperation (struct : OperationDict)
  | timedOut (name : String) (lastSeen : OperationDict)
  | failed (name error : String) (lastSeen : OperationDict)
  | resolved (response : Option String)
  | stillPolling (total_seconds delay_seconds : Rat) (lastSeen : OperationDict)
deriving DecidableEq

/-- The source's polling loop: while the handle is not done, check
`total_seconds > 900` (raising a timeout error naming the last-seen handle),
re-fetch the handle by GET on its name (`fetch n` is the handle returned by the
n-th GET), sleep `delay_seconds`, then update `total_seconds += total_seconds`
and `delay_seconds = min(delay_seconds * 1.5, 20)`. On exit, a handle carrying
an error fails, otherwise the handle's `response` field is returned. -/
def pollLoop (fetch : Nat → OperationDict) (name : String) :
    Nat → Nat → Rat → Rat → OperationDict → ResolveResult
  | 0, _, total_seconds, delay_seconds, operation =>
    if operation.done = some true then
      match operation.error with
      | some e => .failed name e operation
      | none => .resolved operation.response
    else .stillPolling total_seconds delay_seconds operation
  | fuel + 1, n, total_seconds, delay_seconds, operation =>
    if operation.done = some true then
      match operation.error with
      | some e => .failed name e operation
      | none => .resolved operation.response
    else if total_seconds > LRO_POLLING_TIMEOUT_SECONDS then
      .timedOut name operation
    else
      pollLoop fetch name fuel (n + 1) (total_seconds + total_seconds)
        (min (delay_seconds * LRO_POLLING_MULTIPLIER) LRO_POLLING_MAXIMUM_DELAY_SECONDS)
        (fetch n)

/-- The source's `t_resolve_operation(api_client, struct)`: a payload whose
`name` is truthy and contains the `/operations/` marker is polled (starting with
`total_seconds = 0.0` and `delay_seconds = 1.0`); anything else is returned
unchanged. -/
def t_resolve_operation (fetch : Nat → OperationDict) (fuel : Nat)
    (struct : OperationDict) : ResolveResult :=
  match struct.name with
  | some name =>
    if name ≠ "" ∧ containsSub "/operations/" name = true then
      pollLoop fetch name fuel 0 0 LRO_POLLING_INITIAL_DELAY_SECONDS struct
    else .notOperation struct
  | none => .notOperation struct

/-- An operation handle that never reports done. -/
def neverDoneOp : OperationDict :=
  { name := some "batches/123/operations/456", done := some false }

/-- A backend whose re-fetched handles never report done. -/
def neverDone : Nat → OperationDict := fun _ => neverDoneOp

/-- Is the poll outcome a still-running loop with accumulated
`total_seconds = 0`? -/
def pollStillRunningAtZero : ResolveResult → Bool
  | .stillPolling t _ _ => t = 0
  | _ => false

/-! ## Streaming decode (`_api_client.py::HttpResponse.segments`) -/

/-- Strip the literal `'data: '` marker when present (Python
`chunk.startswith('data: ')` then `chunk[len('data: '):]`). -/
def stripDataMarker (chunk : String) : String :=
  if "data: ".data.isPrefixOf chunk.data then String.mk (chunk.data.drop 6) else chunk

/-- The source's `HttpResponse.segments` streaming branch, over the sequence of
line fragments produced by `iter_lines()`: falsy (empty) lines are skipped, the
`'data: '` marker is stripped, and each remaining line is parsed as exactly one
JSON value. The JSON parser (`json.loads`) is an external collaborator,
abstracted as `parse`. -/
def segments {α : Type} (parse : String → α) : List String → List α
  | [] => []
  | chunk :: rest =>
    if chunk ≠ "" then parse (stripDataMarker chunk) :: segments parse rest
    else segments parse rest

/-! ## Byte encoding (`_transformers.py::t_bytes`) -/

/-- The base64 alphabet: the standard variant uses `+` and `/` for indices 62
and 63, the URL-safe variant uses `-` and `_`. -/
def b64Chars (urlsafe : Bool) : List Char :=
  "ABCDEFGHIJKLMNOPQRSTUVWXYZabcdefghijklmnopqrstuvwxyz0123456789".data
    ++ (if urlsafe then ['-', '_'] else ['+', '/'])

/-- Alphabet character of a sextet value. -/
def b64Char (u : Bool) (i : Nat) : Char := (b64Chars u).getD i '='

/-- Sextet value of an alphabet character. -/
def b64Index (u : Bool) (c : Char) : Nat := (b64Chars u).indexOf c

/-- Base64 encoding of a byte list (bytes as naturals below 256) with `=`
padding, as performed by Python's `base64.b64encode` (standard alphabet,
`u = false`) and `base64.urlsafe_b64encode` (`u = true`). -/
def b64encode (u : Bool) : List Nat → List Char
  | [] => []
  | [b1] => [b64Char u (b1 / 4), b64Char u (b1 % 4 * 16), '=', '=']
  | [b1, b2] =>
    [b64Char u (b1 / 4), b64Char u (b1 % 4 * 16 + b2 / 16),
     b64Char u (b2 % 16 * 4), '=']
  | b1 :: b2 :: b3 :: rest =>
    b64Char u (b1 / 4) :: b64Char u (b1 % 4 * 16 + b2 / 16)
      :: b64Char u (b2 % 16 * 4 + b3 / 64) :: b64Char u (b3 % 64)
      :: b64encode u rest

/-- Base64 decoding (the inverse performed by Python's `base64.b64decode` and
`base64.urlsafe_b64decode` on well-formed input). -/
def b64decode (u : Bool) : List Char → List Nat
  | c1 :: c2 :: c3 :: c4 :: rest =>
    let s1 := b64Index u c1
    let s2 := b64Index u c2
    if c3 = '=' then [s1 * 4 + s2 / 16]
    else
      let s3 := b64Index u c3
      if c4 = '=' then [s1 * 4 + s2 / 16, s2 % 16 * 16 + s3 / 4]
      else (s1 * 4 + s2 / 16) :: (s2 % 16 * 16 + s3 / 4)
        :: (s3 % 4 * 64 + b64Index u c4) :: b64decode u rest
  | _ => []

/-- Backend personality flags of the api client; `vertexai = true` is the
cloud personality, `false` the direct personality. -/
structure ApiClientFlags where
  vertexai : Bool

/-- The source's `t_bytes`: the cloud (`vertexai`) personality encodes bytes
with standard base64, the direct personality with URL-safe base64 (the encoded
ascii string is modelled as its character list). -/
def t_bytes (client : ApiClientFlags) (data : List Nat) : List Char :=
  if client.vertexai then b64encode false data else b64encode true data

/-! ## Chunked resumable upload (`_api_client.py::BaseApiClient._upload_fd`) -/

def CHUNK_SIZE : Nat := 8 * 1024 * 1024

/-- One POST issued by the upload loop: its `X-Goog-Upload-Command`,
`X-Goog-Upload-Offset` and `Content-Length` headers. -/
structure UploadRequest where
  command : String
  offset : Nat
  length : Nat
deriving DecidableEq

/-- Outcome of the upload loop; the log records every request issued, and
`outOfFuel` marks an exhausted iteration budget. -/
inductive UploadOutcome
  | success (log : List UploadRequest)
  | uploadError (msg : String) (log : List UploadRequest)
  | outOfFuel (log : List UploadRequest)
deriving DecidableEq

/-- The source's upload loop. The file is modelled by its remaining byte count
(`file.read(CHUNK_SIZE)` returns `min CHUNK_SIZE remaining` bytes); `server n`
is the `x-goog-upload-status` response header of the n-th POST. Each iteration
reads a chunk, marks the command `upload, finalize` when the chunk's length
plus the current offset reaches or exceeds the declared size, POSTs, advances
the offset, breaks when the status is anything other than `active` (the loop
then requires the terminal status to be exactly `final`), and raises when all
declared content is uploaded while the server still reports `active`. -/
def uploadLoop (server : Nat → String) (upload_size : Nat) :
    Nat → Nat → Nat → Nat → List UploadRequest → UploadOutcome
  | 0, _, _, _, log => .outOfFuel log
  | fuel + 1, remaining, offset, n, log =>
    let chunk_size := min CHUNK_SIZE remaining
    let upload_command :=
      if upload_size ≤ chunk_size + offset then "upload, finalize" else "upload"
    let log' := log ++ [⟨upload_command, offset, chunk_size⟩]
    if server n ≠ "active" then
      if server n ≠ "final" then
        .uploadError "Failed to upload file: Upload status is not finalized." log'
      else .success log'
    else if upload_size ≤ offset + chunk_size then
      .uploadError "All content has been uploaded, but the upload status is not finalized." log'
    else
      uploadLoop server upload_size fuel (remaining - chunk_size)
        (offset + chunk_size) (n + 1) log'

/-- The source's `_upload_fd`: run the loop from offset 0 on a file of
`file_size` bytes declared as `upload_size`. -/
def _upload_fd (server : Nat → String) (file_size upload_size fuel : Nat) :
    UploadOutcome :=
  uploadLoop server upload_size fuel file_size 0 0 []

/-- The request the loop sends for the i-th chunk (0-based) of a file of
exactly `k` full chunks. -/
def chunkReq (k i : Nat) : UploadRequest :=
  ⟨if i = k - 1 then "upload, finalize" else "upload", i * CHUNK_SIZE, CHUNK_SIZE⟩

/-- The full request log for a file of exactly `k` full chunks. -/
def expectedLog (k : Nat) : List UploadRequest := (List.range k).map (chunkReq k)

/-- Outcome of the upload as decided by the terminal upload-status header (the
response to the last chunk, index `k - 1`): success exactly when it is `final`,
the premature-completion error when the server still reports `active`, and the
not-finalized error otherwise. -/
def finalOutcome (server : Nat → String) (k : Nat) (log : List UploadRequest) :
    UploadOutcome :=
  if server (k - 1) = "final" then .success log
  else if server (k - 1) = "active" then
    .uploadError "All content has been uploaded, but the upload status is not finalized." log
  else .uploadError "Failed to upload file: Upload status is not finalized." log

/-- A server that accepts the first chunk and finalizes on the second. -/
def server0 : Nat → String := fun n => if n = 0 then "active" else "final"

/-! ## Client construction (`_api_client.py::BaseApiClient.__init__`) -/

/-- Python truthiness of an optional string: `None` and `''` are falsy. -/
def truthy : Option String → Bool
  | none => false
  | some s => s ≠ ""

/-- Python `a or b` on optional strings: `b` when `a` is falsy. -/
def pyOr (a b : Option String) : Option String := if truthy a then a else b

/-- Python `os.environ.get(FLAG, '0').lower() in ['true', '1']`. -/
def envFlagTrue (v : Option String) : Bool :=
  (v.getD "0").toLower = "true" || (v.getD "0").toLower = "1"

/-- Environment variables read by the constructor (`GOOGLE_GENAI_USE_VERTEXAI`,
`GOOGLE_GENAI_USE_MODELGARDEN`, `GOOGLE_CLOUD_PROJECT`, `GOOGLE_CLOUD_LOCATION`,
`GOOGLE_API_KEY`). -/
structure EnvVars where
  use_vertexai : Option String := none
  use_modelgarden : Option String := none
  project : Option String := none
  location : Option String := none
  api_key : Option String := none

/-- Explicit constructor arguments; `credentials` records whether an explicit
credentials object was passed. -/
structure InitArgs where
  vertexai : Option Bool := none
  modelgarden : Option Bool := none
  api_key : Option String := none
  credentials : Bool := false
  project : Option String := none
  location : Option String := none
  http_options : Option HttpOptions := none

/-- Fields of a successfully constructed client. -/
structure ClientState where
  vertexai : Bool
  modelgarden : Bool
  project : Option String
  location : Option String
  api_key : Option String
  hasCredentials : Bool
  http_options : HttpOptions

/-- `self.vertexai = vertexai` (resp. modelgarden), then when `None` set to
`True` if the corresponding environment flag is on. -/
def resolveFlag (arg : Option Bool) (env : Option String) : Option Bool :=
  match arg with
  | some b => some b
  | none => if envFlagTrue env then some true else none

/-- Tail of `__init__` common to both personalities: the default
`Content-Type` header, the `x-goog-api-key` header when an API key is set, and
the user-supplied http-options patch (or, absent user options, the direct
append of the library version headers). -/
def finishInit (T : String) (a : InitArgs) (vertexai modelgarden : Bool)
    (project location api_key : Option String) (hasCredentials : Bool)
    (base_url api_version : String) : ClientState :=
  let headers1 :=
    if truthy api_key then
      (Headers.empty.insert "Content-Type" "application/json").insert
        "x-goog-api-key" (api_key.getD "")
    else Headers.empty.insert "Content-Type" "application/json"
  let opts : HttpOptions :=
    { base_url := some base_url, api_version := some api_version,
      headers := some headers1, timeout := none }
  let final :=
    match a.http_options with
    | some ho => _patch_http_options T opts ho
    | none => { opts with headers := some (_append_library_version_headers T headers1) }
  { vertexai := vertexai, modelgarden := modelgarden, project := project,
    location := location, api_key := api_key, hasCredentials := hasCredentials,
    http_options := final }

/-- The source's `BaseApiClient.__init__`: personality-flag resolution, the
mutual-exclusivity validation, environment fallbacks, the Vertex-AI
express-mode precedence chain, application-default-credential loading
(`_load_auth`, an external collaborator modelled by `loadAuth`, yielding the
ambient project id or failing), base-URL and API-version selection, and the
header/option finishing step. A raised `ValueError` is `Except.error` with the
message. -/
def BaseApiClient_init (T : String) (env : EnvVars) (loadAuth : Except String String)
    (a : InitArgs) : Except String ClientState :=
  let modelgarden := resolveFlag a.modelgarden env.use_modelgarden
  let vertexai :=
    if modelgarden.getD false then some true
    else resolveFlag a.vertexai env.use_vertexai
  if (truthy a.project || truthy a.location) && truthy a.api_key then
    .error "Project/location and API key are mutually exclusive in the client initializer."
  else if a.credentials && truthy a.api_key then
    .error "Credentials and API key are mutually exclusive in the client initializer."
  else
    let project0 := pyOr a.project env.project
    let location0 := pyOr a.location env.location
    let api_key0 := pyOr a.api_key env.api_key
    if vertexai.getD false then
      let pla :=
        if a.credentials then (project0, location0, (none : Option String))
        else if (truthy env.location || truthy env.project) && truthy a.api_key then
          ((none : Option String), (none : Option String), api_key0)
        else if (truthy a.project || truthy a.location) && truthy env.api_key then
          (project0, location0, (none : Option String))
        else if (truthy env.location || truthy env.project) && truthy env.api_key then
          (project0, location0, (none : Option String))
        else (project0, location0, api_key0)
      let project1 := pla.1
      let location1 := pla.2.1
      let api_key1 := pla.2.2
      let loaded : Except String (Option String × Bool) :=
        if truthy project1 = false ∧ truthy api_key1 = false then
          match loadAuth with
          | .error e => .error e
          | .ok p => .ok (some p, true)
        else .ok (project1, a.credentials)
      match loaded with
      | .error e => .error e
      | .ok (project2, hasCreds) =>
        if ((truthy project2 && truthy location1) || truthy api_key1) = false then
          .error "Project and location or API key must be set when using the Vertex AI API."
        else
          let base_url :=
            if truthy api_key1 || location1 = some "global" then
              "https://aiplatform.googleapis.com/"
            else "https://" ++ location1.getD "None" ++ "-aiplatform.googleapis.com/"
          if modelgarden.getD false then
            if (truthy project2 && truthy location1) = false then
              .error "Project and location must be set when using ModelGarden models."
            else
              .ok (finishInit T a true true project2 location1 api_key1 hasCreds
                base_url "v1")
          else
            .ok (finishInit T a true false project2 location1 api_key1 hasCreds
              base_url "v1beta1")
    else
      if truthy api_key0 = false then
        .error "Missing key inputs argument! To use the Google AI API,provide (`api_key`) arguments. To use the Google Cloud API, provide (`vertexai`, `project` & `location`) arguments."
      else
        .ok (finishInit T a false false project0 location0 api_key0 a.credentials
          "https://generativelanguage.googleapis.com/" "v1beta")

/-! ## Live-session input encoder (`live.py::AsyncSession._parse_client_message`) -/

/-- The error constant `_FUNCTION_RESPONSE_REQUIRES_ID` from `live.py`. -/
def FUNCTION_RESPONSE_REQUIRES_ID : String :=
  "FunctionResponse request must have an `id` field from the response of a ToolCall.FunctionalCalls in Google AI."

/-- A content part; for the input shapes exercised here only text parts occur. -/
structure PartL where
  text : Option String
deriving DecidableEq

/-- A content: role and parts. -/
structure ContentL where
  role : Option String
  parts : List PartL
deriving DecidableEq

/-- A serialized function-response entry of a tool-response message; the `id`
key is kept only when truthy. The `response` payload is opaque. -/
structure FunctionResponseDictL where
  id : Option String
  name : Option String
  response : Option String
deriving DecidableEq

/-- A live client message as built by the encoder: exactly one of
`client_content` or `tool_response` for the inputs modelled here. -/
inductive LiveClientMessageL
  | clientContent (turns : Option (List ContentL)) (turn_complete : Option Bool)
  | toolResponse (function_responses : List FunctionResponseDictL)
deriving DecidableEq

/-- Caller-supplied input shapes to the encoder that the claims exercise:
absent input, a plain string, and a tool-response-shaped mapping carrying
`name` and `response` keys (and optionally `id`). -/
inductive LiveSendInput
  | empty
  | text (s : String)
  | funcRespDict (id : Option String) (name : String) (response : String)
deriving DecidableEq

/-- Python truthiness of the input (`if not input:`): absent input and the
empty string are falsy; a mapping carrying `name` and `response` keys is a
non-empty dict, hence truthy. -/
def inputFalsy : LiveSendInput → Bool
  | .empty => true
  | .text s => s = ""
  | .funcRespDict _ _ _ => false

/-- The source's `t_part` on a string part (`_transformers.py`): a falsy part
is rejected, a string becomes `Part(text=part)`. -/
def t_part (s : String) : Except String PartL :=
  if s = "" then .error "content part is required." else .ok ⟨some s⟩

/-- The source's `t_content` on a string: a falsy content is rejected, and a
string becomes `Content(role='user', parts=t_parts(client, content))` where
`t_parts` wraps the single part produced by `t_part`. -/
def t_content (s : String) : Except String ContentL :=
  if s = "" then .error "content is required."
  else (t_part s).map (fun p => ⟨some "user", [p]⟩)

/-- The source's `t_contents` on a list of strings: a falsy (empty) list is
rejected, otherwise `t_content` maps over the list. -/
def t_contents (items : List String) : Except String (List ContentL) :=
  if items = [] then .error "contents are required."
  else items.mapM t_content

/-- Modelled from the spec: `_Content_to_mldev` and `_Content_to_vertex` live
in the models module, which is not among these sources; per the spec they are
the two backend-specific field-renaming tables for content payloads, and for a
plain text part the wire field names coincide with the canonical ones, so both
tables act as the identity on the shapes modelled here. -/
def _Content_to_wire (_vertexai : Bool) (c : ContentL) : ContentL := c

/-- The source's `AsyncSession._parse_client_message`, restricted to the input
shapes of `LiveSendInput` and following the source's discrimination order:
falsy input returns the end-of-turn `client_content`; a string is wrapped in a
one-element list and, the list containing a string, is encoded as client
content whose turns come from `t_contents` mapped through the personality
renaming table, with `turn_complete = end_of_turn`; a mapping carrying `name`
and `response` is required to carry an `id` under the direct personality (pre-
check on the mapping, then the per-item re-check after `FunctionResponse`
validation), and is encoded as a `tool_response` message whose entry keeps its
`id` only when truthy. -/
def _parse_client_message (vertexai : Bool) (input : LiveSendInput)
    (end_of_turn : Bool) : Except String LiveClientMessageL :=
  if inputFalsy input then .ok (.clientContent none (some true))
  else
    match input with
    | .empty => .ok (.clientContent none (some true))
    | .text s =>
      match t_contents [s] with
      | .error e => .error e
      | .ok contents =>
        .ok (.clientContent
          (some (contents.map (_Content_to_wire vertexai))) (some end_of_turn))
    | .funcRespDict id name response =>
      if vertexai = false ∧ id = none then .error FUNCTION_RESPONSE_REQUIRES_ID
      else if id = none ∧ vertexai = false then .error FUNCTION_RESPONSE_REQUIRES_ID
      else
        .ok (.toolResponse
          [⟨if truthy id then id else none, some name, some response⟩])

/-! ## Supporting lemmas on substrings and header maps -/

lemma isPrefixOf_refl (l : List Char) : l.isPrefixOf l = true := by
  induction l with
  | nil => rfl
  | cons a as ih => simp [List.isPrefixOf, ih]

lemma length_le_of_isPrefixOf :
    ∀ {l m : List Char}, l.isPrefixOf m = true → l.length ≤ m.length := by
  intro l
  induction l with
  | nil => intro m _; simp
  | cons a as ih =>
    intro m h
    cases m with
    | nil => simp [List.isPrefixOf] at h
    | cons b bs =>
      simp only [List.isPrefixOf, Bool.and_eq_true] at h
      simpa using Nat.succ_le_succ (ih h.2)

lemma occursAt_self_zero (l : List Char) : occursAt l l 0 = true := by
  simp [occursAt, isPrefixOf_refl]

lemma occursAt_self_pos (l : List Char) (hl : l ≠ []) (i : Nat)
    (h1 : 1 ≤ i) (h2 : i ≤ l.length) : occursAt l l i = false := by
  cases hx : occursAt l l i with
  | false => rfl
  | true =>
    exfalso
    have hp : l.isPrefixOf (l.drop i) = true := by simpa [occursAt] using hx
    have hle := length_le_of_isPrefixOf hp
    rw [List.length_drop] at hle
    have hpos : 0 < l.length := List.length_pos.mpr hl
    omega

lemma countOcc_self (l : List Char) (hl : l ≠ []) : countOcc l l = 1 := by
  have key : ∀ m, m ≤ l.length →
      (List.range (m + 1)).countP (fun i => occursAt l l i) = 1 := by
    intro m
    induction m with
    | zero =>
      intro _
      have h1 : List.range 1 = [0] := rfl
      simp [h1, occursAt_self_zero]
    | succ k ih =>
      intro hk
      rw [List.range_succ, List.countP_append, ih (by omega)]
      have hfalse : occursAt l l (k + 1) = false :=
        occursAt_self_pos l hl (k + 1) (by omega) hk
      simp [hfalse]
  simpa [countOcc] using key l.length le_rfl

lemma containsSub_refl (s : String) : containsSub s s = true := by
  have : occursAt s.data s.data 0 = true := occursAt_self_zero s.data
  simp only [containsSub, List.any_eq_true]
  exact ⟨0, by simp [List.mem_range], this⟩

lemma data_ne_nil_of_ne_empty {s : String} (h : s ≠ "") : s.data ≠ [] := by
  intro hd
  apply h
  cases s with
  | mk d =>
    simp only [String.data] at hd
    subst hd
    rfl

lemma Headers.insert_apply_ne (h : Headers) (key v k : String) (hk : k ≠ key) :
    (h.insert key v) k = h k := by
  simp [Headers.insert, hk]

lemma Headers.insert_apply_self (h : Headers) (key v : String) :
    (h.insert key v) key = some v := by
  simp [Headers.insert]

lemma appendVersionHeader_apply_ne (T key : String) (h : Headers) (k : String)
    (hk : k ≠ key) : appendVersionHeader T key h k = h k := by
  unfold appendVersionHeader
  cases hv : h key with
  | none => simp [Headers.insert, hk]
  | some v =>
    dsimp only
    by_cases hc : containsSub T v = true
    · simp [hc]
    · simp [hc, Headers.insert, hk]

lemma appendVersionHeader_isSome (T key : String) (h : Headers) (k : String)
    (hs : (h k).isSome = true) : ((appendVersionHeader T key h) k).isSome = true := by
  by_cases hk : k = key
  · subst hk
    unfold appendVersionHeader
    cases hv : h k with
    | none => simp [Headers.insert]
    | some v =>
      dsimp only
      by_cases hc : containsSub T v = true
      · simp [hc, hv]
      · simp [hc, Headers.insert]
  · rw [appendVersionHeader_apply_ne T key h k hk]
    exact hs

lemma appendVersionHeader_key_isSome (T key : String) (h : Headers) :
    ((appendVersionHeader T key h) key).isSome = true := by
  unfold appendVersionHeader
  cases hv : h key with
  | none => simp [Headers.insert]
  | some v =>
    dsimp only
    by_cases hc : containsSub T v = true
    · simp [hc, hv]
    · simp [hc, Headers.insert]

lemma appendVersionHeader_absent (T key : String) (h : Headers)
    (hv : h key = none) : (appendVersionHeader T key h) key = some T := by
  unfold appendVersionHeader
  rw [hv]
  simp [Headers.insert]

lemma appendVersionHeader_contains (T key : String) (h : Headers) (v : String)
    (hv : h key = some v) (hc : containsSub T v = true) :
    (appendVersionHeader T key h) key = some v := by
  unfold appendVersionHeader
  rw [hv]
  simp [hc, hv]

lemma headersAt_patch (T : String) (b o : HttpOptions) (k : String) :
    headersAt (_patch_http_options T b o) k
      = _append_library_version_headers T
          (Headers.merge (b.headers.getD Headers.empty)
            (o.headers.getD Headers.empty)) k := rfl

lemma merge_isSome (base patch : Headers) (k : String)
    (h : (base k).isSome = true ∨ (patch k).isSome = true) :
    (Headers.merge base patch k).isSome = true := by
  unfold Headers.merge
  cases hp : patch k with
  | some v => simp [Option.orElse]
  | none =>
    cases hb : base k with
    | some v => simp [Option.orElse]
    | none =>
      rcases h with h | h
      · rw [hb] at h
        simp at h
      · rw [hp] at h
        simp at h

lemma append_pair_fresh (T : String) (M : Headers)
    (h1 : M "user-agent" = none) (h2 : M "x-goog-api-client" = none) :
    _append_library_version_headers T M "user-agent" = some T
    ∧ _append_library_version_headers T M "x-goog-api-client" = some T := by
  constructor
  · unfold _append_library_version_headers
    rw [appendVersionHeader_apply_ne T _ _ _ (by decide)]
    exact appendVersionHeader_absent _ _ _ h1
  · unfold _append_library_version_headers
    apply appendVersionHeader_absent
    rw [appendVersionHeader_apply_ne T _ _ _ (by decide)]
    exact h2

lemma append_pair_self_token (T : String) (M : Headers)
    (h1 : M "user-agent" = some T) (h2 : M "x-goog-api-client" = some T) :
    _append_library_version_headers T M "user-agent" = some T
    ∧ _append_library_version_headers T M "x-goog-api-client" = some T := by
  constructor
  · unfold _append_library_version_headers
    rw [appendVersionHeader_apply_ne T _ _ _ (by decide)]
    exact appendVersionHeader_contains T _ M T h1 (containsSub_refl T)
  · unfold _append_library_version_headers
    apply appendVersionHeader_contains T _ _ T _ (containsSub_refl T)
    rw [appendVersionHeader_apply_ne T _ _ _ (by decide)]
    exact h2

/-! ## Theorems for the option patcher and the timeout conversion -/

/-- C2: the claim quantifies over every pair of header maps, but when an input
header value already contains the identity token more than once the token still
appears more than once after patching (the append is skipped, nothing is
deduplicated). With a base `user-agent` of `tok0 ++ " " ++ tok0` and an empty
override, the patched `user-agent` carries the token twice. -/
theorem C2_counterexample :
    countOcc tok0.data
      (valueData
        (_patch_http_options tok0
          { headers := some (Headers.empty.insert "user-agent" (tok0 ++ " " ++ tok0)) }
          ({} : HttpOptions)) "user-agent") = 2 := by decide

/-- C2 (amended): `patch(base, override).headers` contains every key from both
maps; on every key other than the two identity headers the override's value
wins; and when the inputs do not themselves supply the `user-agent` or
`x-goog-api-client` headers, the identity token appears exactly once in each of
those headers after a patch, and still exactly once after a second sequential
patch whose override also does not supply them. -/
theorem C2_patch_headers_merge (T : String) (hT : T ≠ "") (b o o2 : HttpOptions)
    (hb1 : headersAt b "user-agent" = none)
    (hb2 : headersAt b "x-goog-api-client" = none)
    (ho1 : headersAt o "user-agent" = none)
    (ho2 : headersAt o "x-goog-api-client" = none)
    (ho21 : headersAt o2 "user-agent" = none)
    (ho22 : headersAt o2 "x-goog-api-client" = none) :
    (∀ k, ((headersAt b k).isSome = true ∨ (headersAt o k).isSome = true) →
        (headersAt (_patch_http_options T b o) k).isSome = true)
    ∧ (∀ k, k ≠ "user-agent" → k ≠ "x-goog-api-client" →
        headersAt (_patch_http_options T b o) k
          = (headersAt o k).orElse (fun _ => headersAt b k))
    ∧ countOcc T.data (valueData (_patch_http_options T b o) "user-agent") = 1
    ∧ countOcc T.data (valueData (_patch_http_options T b o) "x-goog-api-client") = 1
    ∧ countOcc T.data
        (valueData (_patch_http_options T (_patch_http_options T b o) o2)
          "user-agent") = 1
    ∧ countOcc T.data
        (valueData (_patch_http_options T (_patch_http_options T b o) o2)
          "x-goog-api-client") = 1 := by
  have hTd : T.data ≠ [] := data_ne_nil_of_ne_empty hT
  have hMua : Headers.merge (b.headers.getD Headers.empty)
      (o.headers.getD Headers.empty) "user-agent" = none := by
    show (headersAt o "user-agent").orElse (fun _ => headersAt b "user-agent") = none
    rw [ho1, hb1]
    rfl
  have hMx : Headers.merge (b.headers.getD Headers.empty)
      (o.headers.getD Headers.empty) "x-goog-api-client" = none := by
    show (headersAt o "x-goog-api-client").orElse
      (fun _ => headersAt b "x-goog-api-client") = none
    rw [ho2, hb2]
    rfl
  have hp1 := append_pair_fresh T _ hMua hMx
  have hua1 : headersAt (_patch_http_options T b o) "user-agent" = some T := hp1.1
  have hx1 : headersAt (_patch_http_options T b o) "x-goog-api-client" = some T := hp1.2
  have hM2ua : Headers.merge
      ((_patch_http_options T b o).headers.getD Headers.empty)
      (o2.headers.getD Headers.empty) "user-agent" = some T := by
    show (headersAt o2 "user-agent").orElse
      (fun _ => headersAt (_patch_http_options T b o) "user-agent") = some T
    rw [ho21, hua1]
    rfl
  have hM2x : Headers.merge
      ((_patch_http_options T b o).headers.getD Headers.empty)
      (o2.headers.getD Headers.empty) "x-goog-api-client" = some T := by
    show (headersAt o2 "x-goog-api-client").orElse
      (fun _ => headersAt (_patch_http_options T b o) "x-goog-api-client") = some T
    rw [ho22, hx1]
    rfl
  have hp2 := append_pair_self_token T _ hM2ua hM2x
  refine ⟨?_, ?_, ?_, ?_, ?_, ?_⟩
  · intro k hk
    rw [headersAt_patch]
    unfold _append_library_version_headers
    exact appendVersionHeader_isSome _ _ _ _
      (appendVersionHeader_isSome _ _ _ _ (merge_isSome _ _ _ hk))
  · intro k hk1 hk2
    rw [headersAt_patch]
    unfold _append_library_version_headers
    rw [appendVersionHeader_apply_ne T _ _ _ hk2,
      appendVersionHeader_apply_ne T _ _ _ hk1]
    rfl
  · unfold valueData
    rw [hua1]
    exact countOcc_self T.data hTd
  · unfold valueData
    rw [hx1]
    exact countOcc_self T.data hTd
  · unfold valueData
    rw [show headersAt (_patch_http_options T (_patch_http_options T b o) o2)
      "user-agent" = some T from hp2.1]
    exact countOcc_self T.data hTd
  · unfold valueData
    rw [show headersAt (_patch_http_options T (_patch_http_options T b o) o2)
      "x-goog-api-client" = some T from hp2.2]
    exact countOcc_self T.data hTd

/-- C2 witness: a concrete double patch from inputs without identity headers
ends with the token appearing exactly once in `user-agent`. -/
theorem C2_witness :
    countOcc tok0.data
      (valueData
        (_patch_http_options tok0
          (_patch_http_options tok0
            { headers := some (Headers.empty.insert "x-custom" "v") }
            ({} : HttpOptions))
          ({} : HttpOptions)) "user-agent") = 1 :=
  (C2_patch_headers_merge tok0 (by decide)
    { headers := some (Headers.empty.insert "x-custom" "v") }
    ({} : HttpOptions) ({} : HttpOptions)
    (by decide) (by decide) rfl rfl rfl rfl).2.2.2.2.1

/-- C3: the claim as written says a field is replaced "exactly when the override
supplies a non-empty value"; the source tests `patch_value is not None`, so an
override carrying the empty string also replaces the base value. Concretely,
patching `base_url = "https://host/"` with `base_url = ""` yields `""`, not the
surviving base value the claim predicts. -/
theorem C3_counterexample :
    (_patch_http_options "google-genai-sdk/1.0.0 gl-python/3.12.0"
        { base_url := some "https://host/" } { base_url := some "" }).base_url = some ""
    ∧ (some "" : Option String) ≠ some "https://host/" := by
  exact ⟨rfl, by decide⟩

/-- C3 (amended): for every recognized non-header option field (`base_url`,
`api_version`, `timeout`), `_patch_http_options` replaces the base value exactly
when the override supplies any value (i.e. the field `is not None`, including an
empty string); when the override omits the field the base value survives. -/
theorem C3_patch_nonheader_fields (T : String) (b o : HttpOptions) :
    ((_patch_http_options T b o).base_url
        = if o.base_url.isSome then o.base_url else b.base_url)
    ∧ ((_patch_http_options T b o).api_version
        = if o.api_version.isSome then o.api_version else b.api_version)
    ∧ ((_patch_http_options T b o).timeout
        = if o.timeout.isSome then o.timeout else b.timeout) := by
  refine ⟨?_, ?_, ?_⟩
  · cases h : o.base_url <;> simp [_patch_http_options, Option.orElse, h]
  · cases h : o.api_version <;> simp [_patch_http_options, Option.orElse, h]
  · cases h : o.timeout <;> simp [_patch_http_options, Option.orElse, h]

/-- C10: a per-call timeout of `0` milliseconds is treated the same as an absent
timeout — `_get_timeout_in_seconds` returns `none` exactly when its input is
`none` or `0`, and otherwise returns the input divided by 1000, so a caller can
never request a zero-second deadline. -/
theorem C10_timeout_zero_is_absent :
    (∀ t : Option Rat, _get_timeout_in_seconds t = none ↔ t = none ∨ t = some 0)
    ∧ (∀ x : Rat, _get_timeout_in_seconds (some x)
        = if x = 0 then none else some (x / 1000)) := by
  constructor
  · intro t
    match t with
    | none => simp [_get_timeout_in_seconds]
    | some x =>
      by_cases hx : x = 0 <;> simp [_get_timeout_in_seconds, hx]
  · intro x
    rfl

/-- C1: the claim (and the spec's poller contract) says the loop fails with a
runtime timeout error once more than 900 seconds have elapsed, and hence always
terminates. In the source, `total_seconds += total_seconds` starts from `0.0`
and therefore stays `0.0` forever, so the `total_seconds > 900` check never
fires: for every iteration budget, polling a handle that never reports done is
still running with `total_seconds = 0` — it never times out and never
terminates. -/
theorem C1_poller_never_times_out (fuel : Nat) :
    pollStillRunningAtZero (t_resolve_operation neverDone fuel neverDoneOp) = true := by
  have key : ∀ (f n : Nat) (d : Rat),
      pollStillRunningAtZero
        (pollLoop neverDone "batches/123/operations/456" f n 0 d neverDoneOp) = true := by
    intro f
    induction f with
    | zero =>
      intro n d
      rfl
    | succ f ih =>
      intro n d
      show pollStillRunningAtZero
        (pollLoop neverDone "batches/123/operations/456" (f + 1) n 0 d neverDoneOp) = true
      rw [pollLoop]
      rw [if_neg (by simp [neverDoneOp]), if_neg (by norm_num [LRO_POLLING_TIMEOUT_SECONDS])]
      have h00 : (0 : Rat) + 0 = 0 := by norm_num
      rw [h00]
      exact ih (n + 1) _
  have hstart : t_resolve_operation neverDone fuel neverDoneOp
      = pollLoop neverDone "batches/123/operations/456" fuel 0 0
          LRO_POLLING_INITIAL_DELAY_SECONDS neverDoneOp := by
    unfold t_resolve_operation neverDoneOp
    dsimp only
    rw [if_pos ⟨by decide, by decide⟩]
  rw [hstart]
  exact key fuel 0 _

/-- C5: the streaming decoder skips blank lines, strips the literal `'data: '`
marker from lines carrying it, and parses each remaining line as exactly one
JSON value in input order; in particular the lines `data: \x7b"a":1\x7d`, ``,
`data: \x7b"a":2\x7d` decode to exactly the two values parsed from `\x7b"a":1\x7d`
and `\x7b"a":2\x7d`, in that order. -/
theorem C5_segments_decode {α : Type} (parse : String → α) :
    (∀ lines : List String,
      segments parse lines
        = (lines.filter (fun l => l ≠ "")).map (fun l => parse (stripDataMarker l)))
    ∧ segments parse ["data: \x7b\"a\":1\x7d", "", "data: \x7b\"a\":2\x7d"]
        = [parse "\x7b\"a\":1\x7d", parse "\x7b\"a\":2\x7d"] := by
  constructor
  · intro lines
    induction lines with
    | nil => rfl
    | cons c rest ih =>
      by_cases hc : c = ""
      · simp [segments, hc, ih]
      · simp [segments, hc, ih]
  · rfl

/-! ## Base64 round-trip lemmas -/

lemma b64Index_b64Char : ∀ u : Bool, ∀ i < 64, b64Index u (b64Char u i) = i := by
  decide

lemma b64Char_ne_pad : ∀ u : Bool, ∀ i < 64, b64Char u i ≠ '=' := by
  decide

theorem b64_roundtrip (u : Bool) :
    ∀ data : List Nat, (∀ b ∈ data, b < 256) → b64decode u (b64encode u data) = data
  | [], _ => by simp [b64encode, b64decode]
  | [b1], h => by
    have hb1 : b1 < 256 := h b1 (by simp)
    have e1 := b64Index_b64Char u (b1 / 4) (by omega)
    have e2 := b64Index_b64Char u (b1 % 4 * 16) (by omega)
    show b64decode u [b64Char u (b1 / 4), b64Char u (b1 % 4 * 16), '=', '='] = [b1]
    simp [b64decode, e1, e2]
    omega
  | [b1, b2], h => by
    have hb1 : b1 < 256 := h b1 (by simp)
    have hb2 : b2 < 256 := h b2 (by simp)
    have e1 := b64Index_b64Char u (b1 / 4) (by omega)
    have e2 := b64Index_b64Char u (b1 % 4 * 16 + b2 / 16) (by omega)
    have e3 := b64Index_b64Char u (b2 % 16 * 4) (by omega)
    have n3 := b64Char_ne_pad u (b1 % 4 * 16 + b2 / 16) (by omega)
    show b64decode u [b64Char u (b1 / 4), b64Char u (b1 % 4 * 16 + b2 / 16),
      b64Char u (b2 % 16 * 4), '='] = [b1, b2]
    simp [b64decode, e1, e2, e3, b64Char_ne_pad u (b2 % 16 * 4) (by omega)]
    omega
  | b1 :: b2 :: b3 :: rest, h => by
    have hb1 : b1 < 256 := h b1 (by simp)
    have hb2 : b2 < 256 := h b2 (by simp)
    have hb3 : b3 < 256 := h b3 (by simp)
    have ih := b64_roundtrip u rest (fun b hb => h b (by simp [hb]))
    have e1 := b64Index_b64Char u (b1 / 4) (by omega)
    have e2 := b64Index_b64Char u (b1 % 4 * 16 + b2 / 16) (by omega)
    have e3 := b64Index_b64Char u (b2 % 16 * 4 + b3 / 64) (by omega)
    have e4 := b64Index_b64Char u (b3 % 64) (by omega)
    have n3 := b64Char_ne_pad u (b2 % 16 * 4 + b3 / 64) (by omega)
    have n4 := b64Char_ne_pad u (b3 % 64) (by omega)
    show b64decode u (b64Char u (b1 / 4) :: b64Char u (b1 % 4 * 16 + b2 / 16)
      :: b64Char u (b2 % 16 * 4 + b3 / 64) :: b64Char u (b3 % 64)
      :: b64encode u rest) = b1 :: b2 :: b3 :: rest
    simp [b64decode, e1, e2, e3, e4, n3, n4, ih]
    omega

/-- C7: decoding `t_bytes(client, b)` with a standard base64 decoder recovers
`b` under the cloud (`vertexai`) personality, and decoding it with a URL-safe
base64 decoder recovers `b` under the direct personality. -/
theorem C7_t_bytes_roundtrip (client : ApiClientFlags) (data : List Nat)
    (h : ∀ b ∈ data, b < 256) :
    (client.vertexai = true → b64decode false (t_bytes client data) = data)
    ∧ (client.vertexai = false → b64decode true (t_bytes client data) = data) := by
  constructor
  · intro hv
    unfold t_bytes
    rw [hv]
    simpa using b64_roundtrip false data h
  · intro hv
    unfold t_bytes
    rw [hv]
    simpa using b64_roundtrip true data h

/-- C7 witness: the bytes `[71, 111, 255]` survive the round trip under both
personalities. -/
theorem C7_witness :
    b64decode false (t_bytes ⟨true⟩ [71, 111, 255]) = [71, 111, 255]
    ∧ b64decode true (t_bytes ⟨false⟩ [71, 111, 255]) = [71, 111, 255] :=
  ⟨(C7_t_bytes_roundtrip ⟨true⟩ [71, 111, 255] (by decide)).1 rfl,
   (C7_t_bytes_roundtrip ⟨false⟩ [71, 111, 255] (by decide)).2 rfl⟩

/-! ## Upload loop theorems -/

lemma uploadLoop_run (server : Nat → String) (k : Nat)
    (hact : ∀ i, i + 1 < k → server i = "active") :
    ∀ m j, 1 ≤ m → j + m = k → ∀ log : List UploadRequest,
      uploadLoop server (k * CHUNK_SIZE) m (m * CHUNK_SIZE) (j * CHUNK_SIZE) j log
        = finalOutcome server k (log ++ (List.range' j m).map (chunkReq k)) := by
  intro m
  induction m with
  | zero =>
    intro j h0 _ _
    exact absurd h0 (by norm_num)
  | succ m ih =>
    intro j h1 hjm log
    by_cases hm : m = 0
    · subst hm
      have hj : j = k - 1 := by omega
      simp only [uploadLoop]
      have hcs : min CHUNK_SIZE (1 * CHUNK_SIZE) = CHUNK_SIZE := by
        simp
      rw [hcs]
      have hcmd : k * CHUNK_SIZE ≤ CHUNK_SIZE + j * CHUNK_SIZE := by
        simp only [CHUNK_SIZE]
        omega
      rw [if_pos hcmd]
      have hall : k * CHUNK_SIZE ≤ j * CHUNK_SIZE + CHUNK_SIZE := by
        simp only [CHUNK_SIZE]
        omega
      have hreq : chunkReq k j = ⟨"upload, finalize", j * CHUNK_SIZE, CHUNK_SIZE⟩ := by
        unfold chunkReq
        rw [if_pos hj]
      have hrange : (List.range' j 1).map (chunkReq k) = [chunkReq k j] := by
        simp
      unfold finalOutcome
      rw [hrange, hreq, ← hj]
      by_cases hfin : server j = "final"
      · rw [if_pos (show server j ≠ "active" by rw [hfin]; decide),
          if_neg (show ¬ server j ≠ "final" by simp [hfin]),
          if_pos hfin]
      · by_cases hac : server j = "active"
        · rw [if_neg (show ¬ server j ≠ "active" by simp [hac]),
            if_pos hall, if_neg hfin, if_pos hac]
        · rw [if_pos (show server j ≠ "active" from hac),
            if_pos (show server j ≠ "final" from hfin),
            if_neg hfin, if_neg hac]
    · have hm1 : 1 ≤ m := by omega
      simp only [uploadLoop]
      have hcs : min CHUNK_SIZE ((m + 1) * CHUNK_SIZE) = CHUNK_SIZE := by
        simp only [CHUNK_SIZE]
        omega
      rw [hcs]
      have hcmd : ¬ (k * CHUNK_SIZE ≤ CHUNK_SIZE + j * CHUNK_SIZE) := by
        simp only [CHUNK_SIZE]
        omega
      rw [if_neg hcmd]
      have hsrv : server j = "active" := hact j (by omega)
      rw [if_neg (by simp [hsrv])]
      have hall : ¬ (k * CHUNK_SIZE ≤ j * CHUNK_SIZE + CHUNK_SIZE) := by
        simp only [CHUNK_SIZE]
        omega
      rw [if_neg hall]
      have e1 : (m + 1) * CHUNK_SIZE - CHUNK_SIZE = m * CHUNK_SIZE := by
        simp only [CHUNK_SIZE]
        omega
      have e2 : j * CHUNK_SIZE + CHUNK_SIZE = (j + 1) * CHUNK_SIZE := by
        simp only [CHUNK_SIZE]
        omega
      rw [e1, e2]
      rw [ih (j + 1) hm1 (by omega)]
      have hreq : chunkReq k j = ⟨"upload", j * CHUNK_SIZE, CHUNK_SIZE⟩ := by
        unfold chunkReq
        rw [if_neg (by omega)]
      rw [List.range'_succ, List.map_cons, hreq]
      simp

/-- C6: for an upload whose declared total size is a positive exact multiple
`k * CHUNK_SIZE` of the 8 MiB chunk size (and whose file carries exactly that
many bytes), with the server reporting `active` on all but the last chunk: the
loop issues exactly `k` requests, every request carries a full (never empty)
chunk, the `upload, finalize` command is sent exactly on the request whose
length plus offset reaches the declared size (the last full chunk — no extra
empty chunk is sent), and the call succeeds only when the terminal
upload-status header is exactly `final`, failing with an error otherwise. -/
theorem C6_upload_exact_multiple (server : Nat → String) (k : Nat) (hk : 1 ≤ k)
    (hact : ∀ i, i + 1 < k → server i = "active") :
    (∀ req ∈ expectedLog k, req.length = CHUNK_SIZE
        ∧ (req.command = "upload, finalize" ↔ k * CHUNK_SIZE ≤ req.offset + req.length))
    ∧ (expectedLog k).length = k
    ∧ _upload_fd server (k * CHUNK_SIZE) (k * CHUNK_SIZE) k
        = finalOutcome server k (expectedLog k) := by
  refine ⟨?_, ?_, ?_⟩
  · intro req hreq
    simp only [expectedLog, List.mem_map, List.mem_range] at hreq
    obtain ⟨i, hi, rfl⟩ := hreq
    unfold chunkReq
    constructor
    · rfl
    · by_cases hik : i = k - 1
      · rw [if_pos hik]
        simp only [CHUNK_SIZE]
        constructor
        · intro _
          omega
        · intro _
          trivial
      · rw [if_neg hik]
        simp only [CHUNK_SIZE]
        constructor
        · intro hcontra
          exact absurd hcontra (by decide)
        · intro hle
          exfalso
          omega
  · simp [expectedLog]
  · unfold _upload_fd expectedLog
    have hrun := uploadLoop_run server k hact k 0 hk (by omega) []
    rw [show List.range k = List.range' 0 k from List.range_eq_range' k]
    simpa using hrun

/-- C6 witness: a two-chunk upload against a server that stays active then
finalizes. -/
theorem C6_witness :
    _upload_fd server0 (2 * CHUNK_SIZE) (2 * CHUNK_SIZE) 2
      = finalOutcome server0 2 (expectedLog 2) :=
  (C6_upload_exact_multiple server0 2 (by norm_num)
    (fun i hi => by
      have h0 : i = 0 := by omega
      subst h0
      rfl)).2.2

/-- C4: supplying both an explicit project or location and an explicit API key,
or both explicit credentials and an explicit API key, makes
`BaseApiClient.__init__` raise a `ValueError` whose message mentions the mutual
exclusivity, and no client instance is produced. -/
theorem C4_mutual_exclusivity (T : String) (env : EnvVars)
    (loadAuth : Except String String) (a : InitArgs)
    (h : ((truthy a.project || truthy a.location) && truthy a.api_key) = true
       ∨ (a.credentials && truthy a.api_key) = true) :
    ∃ msg, BaseApiClient_init T env loadAuth a = .error msg
      ∧ containsSub "mutually exclusive" msg = true := by
  by_cases h1 : ((truthy a.project || truthy a.location) && truthy a.api_key) = true
  · refine ⟨"Project/location and API key are mutually exclusive in the client initializer.",
      ?_, by decide⟩
    simp only [BaseApiClient_init]
    rw [if_pos h1]
  · have h2 : (a.credentials && truthy a.api_key) = true := by
      rcases h with h | h
      · exact absurd h h1
      · exact h
    refine ⟨"Credentials and API key are mutually exclusive in the client initializer.",
      ?_, by decide⟩
    simp only [BaseApiClient_init]
    rw [if_neg h1, if_pos h2]

/-- C4 witness: constructing with `project="p"` and `api_key="k"` fails with a
message mentioning mutual exclusivity. -/
theorem C4_witness :
    ∃ msg, BaseApiClient_init tok0 {} (.error "no adc")
        { project := some "p", api_key := some "k" } = .error msg
      ∧ containsSub "mutually exclusive" msg = true :=
  C4_mutual_exclusivity tok0 {} (.error "no adc")
    { project := some "p", api_key := some "k" } (Or.inl (by decide))

/-- C8: a tool-response-shaped mapping (carrying `name` and `response`) that
lacks an `id` makes the live input encoder raise the specific "requires an id"
error under the direct personality, and the same input succeeds as a
`tool_response` client message under the cloud (`vertexai`) personality. -/
theorem C8_tool_response_requires_id (name response : String) (eot : Bool) :
    _parse_client_message false (.funcRespDict none name response) eot
      = .error FUNCTION_RESPONSE_REQUIRES_ID
    ∧ _parse_client_message true (.funcRespDict none name response) eot
      = .ok (.toolResponse [⟨none, some name, some response⟩]) := by
  constructor
  · rfl
  · rfl

/-- C9: feeding the encoder the plain string `"hi"` with `end_of_turn = true`
produces a `client_content` message whose turns hold exactly one `user` content
with a single text part `"hi"` and whose `turn_complete` flag is true; more
generally a non-empty plain string is wrapped as one text turn carrying the
supplied end-of-turn flag, and an empty or absent input yields a
`client_content` message with `turn_complete` true. -/
theorem C9_plain_string_turn (vertexai eot : Bool) (s : String) (hs : s ≠ "") :
    _parse_client_message vertexai (.text "hi") true
      = .ok (.clientContent (some [⟨some "user", [⟨some "hi"⟩]⟩]) (some true))
    ∧ _parse_client_message vertexai (.text s) eot
      = .ok (.clientContent (some [⟨some "user", [⟨some s⟩]⟩]) (some eot))
    ∧ _parse_client_message vertexai .empty eot
      = .ok (.clientContent none (some true)) := by
  have ht : t_content s = .ok ⟨some "user", [⟨some s⟩]⟩ := by
    simp [t_content, t_part, hs, Except.map]
  have hc : t_contents [s] = .ok [⟨some "user", [⟨some s⟩]⟩] := by
    simp [t_contents, List.mapM, List.mapM.loop, ht]
  refine ⟨rfl, ?_, rfl⟩
  unfold _parse_client_message
  rw [if_neg (by simp [inputFalsy, hs])]
  dsimp only
  rw [hc]
  rfl

/-- C9 witness: the string `"x"` with `end_of_turn = false` becomes one text
turn with `turn_complete = false`. -/
theorem C9_witness :
    _parse_client_message false (.text "x") false
      = .ok (.clientContent (some [⟨some "user", [⟨some "x"⟩]⟩]) (some false)) :=
  (C9_plain_string_turn false false "x" (by decide)).2.1

end GenAI
